import Mathlib

/-!
Verification development for the dice-talent-finder candidate-acquisition
pipeline.  The JavaScript sources are shallowly embedded: machine numbers
become `Nat`/`Int`/`ℚ`, JS `NaN` is reflected by `Option` (with `none` for
NaN), timestamps are `Int` milliseconds passed explicitly in place of
`Date.now()`, and stateful objects become explicit state-passing functions.
Embedded components:
  - `src/utils/cache-manager.js`  (`CacheManager`)
  - `src/scrapers/github-crawler-cached.js`  (`GitHubCrawlerCached`)
  - the uncached `GitHubCrawler` variant (`src/scrapers/github-crawler.js`)
-/

/-! ## JavaScript primitive operations -/

/-- JS `String.prototype.toLowerCase`, modelled character-wise on the
string's character list (ASCII case mapping, as `Char.toLower`). -/
def jsToLower (s : String) : String := ⟨s.data.map Char.toLower⟩

/-- Helper for substring search: does `pat` occur as a prefix of `l`? -/
def isPrefixCharList : List Char → List Char → Bool
  | [], _ => true
  | _ :: _, [] => false
  | a :: as, b :: bs => a == b && isPrefixCharList as bs

/-- Helper for substring search: does `pat` occur anywhere inside `l`? -/
def containsCharList (pat : List Char) : List Char → Bool
  | [] => pat.isEmpty
  | b :: bs => isPrefixCharList pat (b :: bs) || containsCharList pat bs

/-- JS `String.prototype.includes`: `jsIncludes s sub` is `s.includes(sub)`. -/
def jsIncludes (s sub : String) : Bool := containsCharList sub.data s.data

/-- JS `Math.round` on an exact rational: floor of `x + 1/2` (JS rounds
half-way cases toward positive infinity). -/
def jsRound (x : ℚ) : ℤ := ⌊x + 1/2⌋

/-- JS `>` comparison against a possibly-NaN number (`none` models NaN; a
comparison with NaN is false). `nanLt t x` is the JS expression `x > t`. -/
def nanLt (t : ℚ) : Option ℚ → Bool
  | some x => decide (t < x)
  | none => false

/-- JS truthiness of a possibly-absent string (`null`/`undefined` and the
empty string are falsy). -/
def jsTruthyStr : Option String → Bool
  | some s => !(s == "")
  | none => false

/-- JS `a || b` fallback for a possibly-absent string: returns `a` when it
is truthy, else `b`. -/
def jsOrStr (a : Option String) (b : String) : String :=
  match a with
  | some s => if s == "" then b else s
  | none => b

/-- A stable insertion of `x` into `l`: `x` is placed before the first
element `y` with `le x y`. Used to model JS `Array.prototype.sort` (a
stable comparison sort; only the permutation property is relied on). -/
def insertStable (le : α → α → Bool) (x : α) : List α → List α
  | [] => [x]
  | y :: ys => if le x y then x :: y :: ys else y :: insertStable le x ys

/-- Stable comparison sort modelling JS `Array.prototype.sort`. -/
def sortStable (le : α → α → Bool) : List α → List α
  | [] => []
  | x :: xs => insertStable le x (sortStable le xs)

/-! ## Data model shared by both crawler variants -/

/-- A GitHub repository record, with the fields the crawlers read.
`language`, `description` are nullable in the API; `topics` may be absent
(an absent array behaves as the empty list in the crawler code). -/
structure Repo where
  name : String
  description : Option String
  language : Option String
  topics : List String
  stargazers_count : Nat
  forks_count : Nat
deriving DecidableEq

/-- A GitHub user profile record, with the fields the crawlers read.
`created_at` is the parsed account-creation timestamp in ms; `none` models
a missing field (parsing it gives an Invalid Date, i.e. NaN years). -/
structure Profile where
  created_at : Option Int
  name : Option String
  html_url : Option String
  avatar_url : Option String
  location : Option String
  hireable : Bool
  followers : Option Nat
  public_repos : Nat
deriving DecidableEq

/-- The experience summary produced by `calculateExperience` in both
crawler variants. `yearsSinceJoin` is `none` when the profile's
creation date was missing (NaN in JS). -/
structure Experience where
  yearsSinceJoin : Option ℚ
  totalStars : Nat
  totalForks : Nat
  publicRepos : Nat
  level : String
deriving DecidableEq

/-- The `skillsMatch` record `{required, preferred, total}`. -/
structure SkillsMatch where
  required : Nat
  preferred : Nat
  total : Nat
deriving DecidableEq

/-- The `yearsExperience` range of a job-requirements record. -/
structure YearsRange where
  min : ℚ
  max : ℚ
deriving DecidableEq

/-- Job requirements as consumed by query building and scoring. -/
structure JobRequirements where
  requiredSkills : List String
  preferredSkills : List String
  level : String
  yearsExperience : YearsRange
deriving DecidableEq

/-- A raw search-result user item, as consumed by `removeDuplicates`
(keyed by `login`; `searchScore` stands for the rest of the per-item
metadata, used to tell distinct occurrences apart). -/
structure SearchUser where
  login : String
  searchScore : Nat
deriving DecidableEq

/-- `removeDuplicates` - identical in `GitHubCrawler` and
`GitHubCrawlerCached`: keep a candidate iff its `login` has not been seen
yet. The mutable `seen` set becomes an accumulator argument. -/
def removeDuplicatesAux (seen : List String) : List SearchUser → List SearchUser
  | [] => []
  | c :: rest =>
    if c.login ∈ seen then removeDuplicatesAux seen rest
    else c :: removeDuplicatesAux (c.login :: seen) rest

/-- Entry point of the deduplication pass (empty `seen` set). -/
def removeDuplicates (candidates : List SearchUser) : List SearchUser :=
  removeDuplicatesAux [] candidates

/-- Milliseconds per year as used by both `calculateExperience` variants:
`1000 * 60 * 60 * 24 * 365`. -/
def msPerYear : Int := 1000 * 60 * 60 * 24 * 365

/-- Fractional years since account creation:
`(Date.now() - joinDate.getTime()) / msPerYear`; `none` (NaN) when the
creation date is missing. -/
def yearsSinceJoinRaw (now : Int) (p : Profile) : Option ℚ :=
  p.created_at.map (fun c => ((now - c : Int) : ℚ) / (msPerYear : ℚ))

/-- `Math.round(yearsSinceJoin * 10) / 10`, NaN-propagating. -/
def roundTenth : Option ℚ → Option ℚ :=
  Option.map (fun y => (jsRound (y * 10) : ℚ) / 10)

/-- `repos.reduce((sum, repo) => sum + (repo.stargazers_count || 0), 0)`. -/
def totalStars (repos : List Repo) : Nat :=
  repos.foldl (fun sum r => sum + r.stargazers_count) 0

/-- `repos.reduce((sum, repo) => sum + (repo.forks_count || 0), 0)`. -/
def totalForks (repos : List Repo) : Nat :=
  repos.foldl (fun sum r => sum + r.forks_count) 0

/-! ## CacheManager (`src/utils/cache-manager.js`) -/

namespace CacheManager

/-- One cache entry `{data, timestamp, ttl}` as written by `set`. -/
structure Entry (V : Type) where
  data : V
  timestamp : Int
  ttl : Int
deriving DecidableEq

/-- An on-disk cache file: either a well-formed serialized entry or a
corrupt/unparsable file (whose `JSON.parse` throws). -/
inductive DiskFile (V : Type) where
  | corrupt : DiskFile V
  | entry : Entry V → DiskFile V
deriving DecidableEq

/-- Hit/miss statistics tracked by the store. -/
structure Stats where
  hits : Nat
  misses : Nat
  memoryHits : Nat
  diskHits : Nat
  writes : Nat
deriving DecidableEq

/-- The mutable state of a `CacheManager`: the in-process `Map` (an
insertion-ordered association list), the on-disk store (one file per key),
the capacity bound, and the counters. Disk writes are modelled as
succeeding (a failed write is logged and non-fatal in the source). -/
structure State (V : Type) where
  maxMemorySize : Nat
  memoryCache : List (String × Entry V)
  disk : List (String × DiskFile V)
  stats : Stats
deriving DecidableEq

/-- Lookup in an insertion-ordered association list (JS `Map.get`). -/
def assocFind (m : List (String × α)) (k : String) : Option α :=
  (m.find? (fun p => p.1 == k)).map (fun p => p.2)

/-- Insertion into an insertion-ordered association list (JS `Map.set`):
an existing key keeps its position, a new key is appended. -/
def assocSet (m : List (String × α)) (k : String) (v : α) : List (String × α) :=
  if m.any (fun p => p.1 == k) then
    m.map (fun p => if p.1 == k then (k, v) else p)
  else m ++ [(k, v)]

/-- JS `Array.prototype.join("_")`. -/
def joinUnderscore : List String → String
  | [] => ""
  | [s] => s
  | s :: rest => s ++ "_" ++ joinUnderscore rest

/-- `CacheManager.generateKey`: the md5 digest of
`prefix + ":" + params.join("_")`. The md5 digest is modelled as the
identity on the key string: md5 is a deterministic function of its input,
so equalities of key strings transfer to equalities of digests, and hash
collisions between distinct key strings are not modelled. -/
def generateKey (ns : String) (params : List String) : String :=
  ns ++ ":" ++ joinUnderscore params

/-- `CacheManager.isValid`: `Date.now() - cached.timestamp < cached.ttl`. -/
def isValid (now : Int) (e : Entry V) : Bool :=
  decide (now - e.timestamp < e.ttl)

/-- `CacheManager.setMemoryCache`: evict the first-inserted entry when the
map is at capacity, then `Map.set` the new entry. -/
def setMemoryCache (st : State V) (k : String) (e : Entry V) : State V :=
  let m :=
    if st.memoryCache.length ≥ st.maxMemorySize then st.memoryCache.drop 1
    else st.memoryCache
  { st with memoryCache := assocSet m k e }

/-- Outcome of a `get`: the returned payload (or `null`) and the updated
manager state. -/
structure GetResult (V : Type) where
  result : Option V
  state : State V
deriving DecidableEq

/-- Record a miss (`this.stats.misses++`). -/
def bumpMiss (st : State V) : State V :=
  { st with stats := { st.stats with misses := st.stats.misses + 1 } }

/-- The disk half of `CacheManager.get`: read the key's file; a corrupt
file's `JSON.parse` throws, is caught, and falls through to a miss; a
valid entry is promoted into the memory tier. The file is not modified in
any branch. -/
def getFromDisk (now : Int) (st : State V) (k : String) : GetResult V :=
  match assocFind st.disk k with
  | some (DiskFile.entry e) =>
    if isValid now e then
      let st1 := setMemoryCache st k e
      ⟨some e.data,
        { st1 with stats := { st1.stats with
            hits := st1.stats.hits + 1, diskHits := st1.stats.diskHits + 1 } }⟩
    else ⟨none, bumpMiss st⟩
  | some DiskFile.corrupt => ⟨none, bumpMiss st⟩
  | none => ⟨none, bumpMiss st⟩

/-- `CacheManager.get`: memory tier first, then disk tier. -/
def get (now : Int) (st : State V) (k : String) : GetResult V :=
  match assocFind st.memoryCache k with
  | some e =>
    if isValid now e then
      ⟨some e.data,
        { st with stats := { st.stats with
            hits := st.stats.hits + 1, memoryHits := st.stats.memoryHits + 1 } }⟩
    else getFromDisk now st k
  | none => getFromDisk now st k

/-- `CacheManager.set`: write-through to both tiers (the disk write is
modelled as succeeding). -/
def set (now : Int) (st : State V) (k : String) (v : V) (ttl : Int) : State V :=
  let e : Entry V := ⟨v, now, ttl⟩
  let st1 := setMemoryCache st k e
  { st1 with
    disk := assocSet st1.disk k (DiskFile.entry e),
    stats := { st1.stats with writes := st1.stats.writes + 1 } }

/-- Is an on-disk file kept by `cleanup`? Corrupt files are unparsable
(their `JSON.parse` throws) and are unlinked; parsed entries are kept iff
still valid. -/
def diskFileValid (now : Int) : DiskFile V → Bool
  | DiskFile.corrupt => false
  | DiskFile.entry e => isValid now e

/-- `CacheManager.cleanup`: drop expired entries from the memory tier and
delete expired or unparsable files from the disk tier. -/
def cleanup (now : Int) (st : State V) : State V :=
  { st with
    memoryCache := st.memoryCache.filter (fun p => isValid now p.2),
    disk := st.disk.filter (fun p => diskFileValid now p.2) }

end CacheManager

/-! ## The uncached crawler (`src/scrapers/github-crawler.js`) -/

namespace GitHubCrawler

/-- The exact level branch of `GitHubCrawler.calculateExperience`:
`senior` if `yearsSinceJoin > 5 || totalStars > 100 || publicRepos > 20`,
else `mid` if `yearsSinceJoin > 2 || totalStars > 20 || publicRepos > 10`,
else `junior`. Comparisons against NaN years are false. -/
def experienceLevel (years : Option ℚ) (stars : Nat) (publicRepos : Nat) : String :=
  if nanLt 5 years || decide (100 < stars) || decide (20 < publicRepos) then "senior"
  else if nanLt 2 years || decide (20 < stars) || decide (10 < publicRepos) then "mid"
  else "junior"

/-- `GitHubCrawler.calculateExperience` (uses `profile.public_repos` for the
repo count and the level thresholds 100/20 stars, 20/10 repos). -/
def calculateExperience (now : Int) (p : Profile) (repos : List Repo) : Experience :=
  let years := yearsSinceJoinRaw now p
  let stars := totalStars repos
  { yearsSinceJoin := roundTenth years
    totalStars := stars
    totalForks := totalForks repos
    publicRepos := p.public_repos
    level := experienceLevel years stars p.public_repos }

/-- The skill matcher of `GitHubCrawler.scoreCandidates`:
`candidateSkill.includes(skill.toLowerCase()) ||
 skill.toLowerCase().includes(candidateSkill)`. -/
def skillMatches (candidateSkill jobSkill : String) : Bool :=
  jsIncludes candidateSkill (jsToLower jobSkill) ||
    jsIncludes (jsToLower jobSkill) candidateSkill

/-- Number of job skills matched by the candidate's skill list
(`jobSkills.filter(skill => skills.some(...)).length`). -/
def matchCount (skills : List String) (jobSkills : List String) : Nat :=
  (jobSkills.filter (fun skill => skills.any (fun cs => skillMatches cs skill))).length

/-- The fields of an enriched candidate that `GitHubCrawler.scoreCandidates`
reads (the full enriched record also carries the raw profile, repositories
and contributions, which scoring does not inspect). -/
structure CandidateU where
  login : String
  skills : List String
  experience : Experience
  hireable : Bool
deriving DecidableEq

/-- The skill-overlap component `(match / jobSkills.length) * weight`.
When the job-skill list is empty the JS expression is `0 / 0 = NaN`,
modelled as `none`. -/
def overlapComponent (jobSkills : List String) (skills : List String) (weight : ℚ) : Option ℚ :=
  if jobSkills.length = 0 then none
  else some (((matchCount skills jobSkills : ℚ) / (jobSkills.length : ℚ)) * weight)

/-- NaN-propagating addition of score components. -/
def addNaN : Option ℚ → Option ℚ → Option ℚ
  | some a, some b => some (a + b)
  | _, _ => none

/-- The experience-level bonus: `+20` exact match, `+10` one level below
(`senior`/`mid` or `mid`/`junior`), else `0`. -/
def levelBonus (reqLevel candLevel : String) : ℚ :=
  if candLevel == reqLevel then 20
  else if (reqLevel == "senior" && candLevel == "mid") ||
          (reqLevel == "mid" && candLevel == "junior") then 10
  else 0

/-- `years >= min && years <= max`, false when years is NaN. -/
def inRange : Option ℚ → ℚ → ℚ → Bool
  | some y, lo, hi => decide (lo ≤ y) && decide (y ≤ hi)
  | none, _, _ => false

/-- The years-in-range bonus, guarded by JS truthiness of both bounds
(`if (yearsExperience.min && yearsExperience.max)` - a zero bound is falsy
and disables the bonus). -/
def yearsBonus (r : YearsRange) (years : Option ℚ) : ℚ :=
  if r.min ≠ 0 ∧ r.max ≠ 0 then
    (if inRange years r.min r.max then 10 else 0)
  else 0

/-- The raw (pre-rounding) score of `GitHubCrawler.scoreCandidates` for one
candidate; `none` models the NaN produced by an empty required- or
preferred-skill list. -/
def scoreValue (req : JobRequirements) (c : CandidateU) : Option ℚ :=
  addNaN (overlapComponent req.requiredSkills c.skills 40)
    (addNaN (overlapComponent req.preferredSkills c.skills 20)
      (some (levelBonus req.level c.experience.level
        + yearsBonus req.yearsExperience c.experience.yearsSinceJoin
        + (if 50 < c.experience.totalStars then 5 else 0)
        + (if 15 < c.experience.publicRepos then 5 else 0)
        + (if c.hireable then 5 else 0))))

/-- A scored candidate as returned by `GitHubCrawler.scoreCandidates`:
the enriched record plus `score = Math.round(score)` (NaN-propagating)
and the `skillsMatch` counts. -/
structure ScoredCandidateU where
  candidate : CandidateU
  score : Option Int
  skillsMatch : SkillsMatch
deriving DecidableEq

/-- Scoring-and-record construction for one candidate. -/
def buildScored (req : JobRequirements) (c : CandidateU) : ScoredCandidateU :=
  let r := matchCount c.skills req.requiredSkills
  let p := matchCount c.skills req.preferredSkills
  { candidate := c
    score := (scoreValue req c).map jsRound
    skillsMatch := ⟨r, p, r + p⟩ }

/-- The comparator `(a, b) => b.score - a.score` as a `le` relation for a
stable sort; a NaN difference is treated as `0` (elements compare equal). -/
def scoreLe (a b : ScoredCandidateU) : Bool :=
  match a.score, b.score with
  | some x, some y => decide (y ≤ x)
  | _, _ => true

/-- `GitHubCrawler.scoreCandidates`: map to scored records, then sort by
descending score (the top-20 truncation happens later, in
`searchCandidates`). -/
def scoreCandidates (req : JobRequirements) (candidates : List CandidateU) : List ScoredCandidateU :=
  sortStable scoreLe (candidates.map (buildScored req))

end GitHubCrawler

/-! ## The cached crawler (`src/scrapers/github-crawler-cached.js`) -/

namespace GitHubCrawlerCached

/-- The exact level branch of `GitHubCrawlerCached.calculateExperience`:
`senior` if `yearsSinceJoin > 5 || totalStars > 1000`, else `mid` if
`yearsSinceJoin > 2 || totalStars > 100`, else `junior`. The repository
count plays no role in this variant. -/
def experienceLevel (years : Option ℚ) (stars : Nat) : String :=
  if nanLt 5 years || decide (1000 < stars) then "senior"
  else if nanLt 2 years || decide (100 < stars) then "mid"
  else "junior"

/-- `GitHubCrawlerCached.calculateExperience` (repo count is
`repos.length`; level thresholds are 1000/100 stars, no repo threshold). -/
def calculateExperience (now : Int) (p : Profile) (repos : List Repo) : Experience :=
  let years := yearsSinceJoinRaw now p
  let stars := totalStars repos
  { yearsSinceJoin := roundTenth years
    totalStars := stars
    totalForks := totalForks repos
    publicRepos := repos.length
    level := experienceLevel years stars }

/-- The static skill vocabulary of
`GitHubCrawlerCached.extractSkillsFromRepos`. -/
def commonSkills : List String :=
  ["python", "javascript", "java", "typescript", "react", "node.js", "django",
   "flask", "express", "mongodb", "postgresql", "mysql", "redis", "docker",
   "kubernetes", "aws", "azure", "gcp", "tensorflow", "pytorch", "scikit-learn",
   "pandas", "numpy", "matplotlib", "seaborn", "sql", "html", "css", "vue",
   "angular", "spring", "laravel", "php", "ruby", "go", "rust", "c++", "c#",
   "swift", "kotlin", "flutter", "react native", "machine learning", "ai",
   "data science", "devops", "ci/cd", "git", "github", "gitlab", "jenkins"]

/-- Insertion into the insertion-ordered skill `Set`. -/
def addSkill (l : List String) (s : String) : List String :=
  if l.contains s then l else l ++ [s]

/-- JS `Array.prototype.join(" ")`. -/
def joinSpace : List String → String
  | [] => ""
  | [s] => s
  | s :: rest => s ++ " " ++ joinSpace rest

/-- The lower-cased search text for one repository:
`(description || "") + " " + (topics.join(" ") || "")`. -/
def repoSearchText (r : Repo) : String :=
  jsToLower ((r.description.getD "") ++ " " ++ joinSpace r.topics)

/-- Per-repository step of `extractSkillsFromRepos`: add the lower-cased
primary language (when present), then every vocabulary keyword occurring
as a substring of the repo's search text. -/
def addRepoSkills (acc : List String) (r : Repo) : List String :=
  let acc1 := match r.language with
    | some lang => addSkill acc (jsToLower lang)
    | none => acc
  commonSkills.foldl
    (fun a skill => if jsIncludes (repoSearchText r) skill then addSkill a skill else a)
    acc1

/-- `GitHubCrawlerCached.extractSkillsFromRepos`:
`Array.from(skills).slice(0, 20)`. -/
def extractSkillsFromRepos (repos : List Repo) : List String :=
  (repos.foldl addRepoSkills []).take 20

/-- `GitHubCrawlerCached.calculateSkillsMatch`: one-directional
case-insensitive containment
(`skills.some(s => s.toLowerCase().includes(skill.toLowerCase()))`). -/
def calculateSkillsMatch (skills : List String) (req : JobRequirements) : SkillsMatch :=
  let r := (req.requiredSkills.filter
    (fun skill => skills.any (fun s => jsIncludes (jsToLower s) (jsToLower skill)))).length
  let p := (req.preferredSkills.filter
    (fun skill => skills.any (fun s => jsIncludes (jsToLower s) (jsToLower skill)))).length
  ⟨r, p, r + p⟩

/-- The enriched candidate record built by `enrichCandidatesCached`. -/
structure EnrichedCandidate where
  username : String
  name : String
  profileUrl : Option String
  avatar : Option String
  location : Option String
  hireable : Bool
  followers : Option Nat
  experience : Experience
  skills : List String
  repositories : Nat
  skillsMatch : SkillsMatch
deriving DecidableEq

/-- The skills component of `GitHubCrawlerCached.scoreCandidates`:
`(skillsMatch.required / (requiredSkills?.length || 1)) * 40`. -/
def skillsScoreQ (req : JobRequirements) (c : EnrichedCandidate) : ℚ :=
  (c.skillsMatch.required : ℚ) /
    (if req.requiredSkills.length = 0 then 1 else (req.requiredSkills.length : ℚ)) * 40

/-- `Math.min(candidate.experience.yearsSinceJoin * 5, 30)`,
NaN-propagating. -/
def experienceScoreQ (c : EnrichedCandidate) : Option ℚ :=
  c.experience.yearsSinceJoin.map (fun y => min (y * 5) 30)

/-- `Math.min(candidate.experience.totalStars / 100, 20)`. -/
def activityScoreQ (c : EnrichedCandidate) : ℚ :=
  min ((c.experience.totalStars : ℚ) / 100) 20

/-- `candidate.location ? 10 : 0` (JS truthiness). -/
def locationScoreQ (c : EnrichedCandidate) : ℚ :=
  if jsTruthyStr c.location then 10 else 0

/-- The final score of `GitHubCrawlerCached.scoreCandidates` for one
candidate: `Math.min(Math.round(sum), 100)`; `none` models the NaN arising
from NaN `yearsSinceJoin` (a degraded profile). -/
def scoreValue (req : JobRequirements) (c : EnrichedCandidate) : Option Int :=
  (experienceScoreQ c).map (fun e =>
    min (jsRound (skillsScoreQ req c + e + activityScoreQ c + locationScoreQ c)) 100)

/-- A scored candidate: the enriched record plus its final score. -/
structure ScoredCandidate where
  candidate : EnrichedCandidate
  score : Option Int
deriving DecidableEq

/-- The comparator `(a, b) => b.score - a.score` as a `le` relation; a NaN
difference is treated as `0`. -/
def scoreLe (a b : ScoredCandidate) : Bool :=
  match a.score, b.score with
  | some x, some y => decide (y ≤ x)
  | _, _ => true

/-- `GitHubCrawlerCached.scoreCandidates`: map to scored records, sort by
descending score, and `slice(0, 20)`. -/
def scoreCandidates (req : JobRequirements) (candidates : List EnrichedCandidate) : List ScoredCandidate :=
  (sortStable scoreLe
    (candidates.map (fun c => ({ candidate := c, score := scoreValue req c } : ScoredCandidate)))).take 20

end GitHubCrawlerCached

namespace GitHubCrawlerCached

/-! ### Enrichment (`enrichCandidatesCached` and the cached getters) -/

/-- The outcomes of the three awaited sub-fetches (cache-or-network) for
one candidate, as seen by the `Promise.all` in `enrichCandidatesCached`:
each is either the fetched value or the error the underlying request
threw. Event payloads are opaque to the crawler (only caught/defaulted),
so they are modelled as strings. -/
structure FetchResults where
  profile : Except String Profile
  repos : Except String (List Repo)
  events : Except String (List String)

/-- The JS empty object `{}` returned by `getUserProfileCached` when the
profile request throws: every field reads as `undefined`. -/
def emptyProfile : Profile :=
  { created_at := none, name := none, html_url := none, avatar_url := none,
    location := none, hireable := false, followers := none, public_repos := 0 }

/-- `getUserProfileCached`: the fetched profile, or `{}` when the request
threw (the error is caught and logged inside the getter). -/
def getUserProfileResult : Except String Profile → Profile
  | Except.ok p => p
  | Except.error _ => emptyProfile

/-- `getUserRepositoriesCached`: the fetched list, or `[]` on error. -/
def getUserRepositoriesResult : Except String (List Repo) → List Repo
  | Except.ok r => r
  | Except.error _ => []

/-- `getUserContributionsCached`: the fetched events, or `[]` on error. -/
def getUserContributionsResult : Except String (List String) → List String
  | Except.ok e => e
  | Except.error _ => []

/-- The record built for one candidate inside the enrichment batch. The
fetched events are bound (`contributions`) but not stored in the record. -/
def enrichCandidate (now : Int) (req : JobRequirements)
    (fetches : String → FetchResults) (login : String) : EnrichedCandidate :=
  let profile := getUserProfileResult (fetches login).profile
  let repos := getUserRepositoriesResult (fetches login).repos
  let _contributions := getUserContributionsResult (fetches login).events
  let skills := extractSkillsFromRepos repos
  let experience := calculateExperience now profile repos
  { username := login
    name := jsOrStr profile.name login
    profileUrl := profile.html_url
    avatar := profile.avatar_url
    location := profile.location
    hireable := profile.hireable
    followers := profile.followers
    experience := experience
    skills := skills
    repositories := repos.length
    skillsMatch := calculateSkillsMatch skills req }

/-- One candidate's slot in `batchResults`: the `try` body produces the
record, the `catch` would produce `null` - but every awaited getter
catches its own errors and returns a default, so the body never throws and
the slot is always non-null. -/
def enrichOne (now : Int) (req : JobRequirements)
    (fetches : String → FetchResults) (login : String) : Option EnrichedCandidate :=
  some (enrichCandidate now req fetches login)

/-- The batching of `enrichCandidatesCached`: slices of `batchSize = 5`. -/
def chunks5 : List α → List (List α)
  | [] => []
  | [a] => [[a]]
  | [a, b] => [[a, b]]
  | [a, b, c] => [[a, b, c]]
  | [a, b, c, d] => [[a, b, c, d]]
  | a :: b :: c :: d :: e :: rest => [a, b, c, d, e] :: chunks5 rest

/-- One batch: run every candidate's enrichment, then
`batchResults.filter(c => c !== null)`. -/
def enrichBatch (now : Int) (req : JobRequirements)
    (fetches : String → FetchResults) (batch : List String) : List EnrichedCandidate :=
  (batch.map (enrichOne now req fetches)).filterMap id

/-- `GitHubCrawlerCached.enrichCandidatesCached`: process the identities
in batches of 5, concatenating each batch's non-null results (the
inter-batch delay does not affect the value). -/
def enrichCandidatesCached (now : Int) (req : JobRequirements)
    (fetches : String → FetchResults) (candidates : List String) : List EnrichedCandidate :=
  ((chunks5 candidates).map (enrichBatch now req fetches)).flatten

/-! ### The fetch client (`makeGitHubRequest`) -/

/-- One HTTP response to an attempt of a request: a 403 rate-limit
response, another non-success status, or a success carrying data. -/
inductive GHResponse (α : Type) where
  | rateLimited : GHResponse α
  | httpError : Nat → GHResponse α
  | ok : α → GHResponse α
deriving DecidableEq

/-- `GitHubCrawlerCached.makeGitHubRequest`, run against the sequence of
responses the server returns to successive attempts of the same endpoint.
On a 403 the client waits the fixed cooldown and calls itself again on the
remaining responses; on another non-success status it throws; on success
it returns the data. The result pairs the number of cooldown waits
(= retries) with the outcome; `none` means the response sequence was
exhausted while the client was still retrying (the recursion never
returns). -/
def makeGitHubRequest {α : Type} : List (GHResponse α) → Option (Nat × Except Nat α)
  | [] => none
  | GHResponse.rateLimited :: rest =>
    (makeGitHubRequest rest).map (fun r => (r.1 + 1, r.2))
  | GHResponse.httpError s :: _ => some (0, Except.error s)
  | GHResponse.ok d :: _ => some (0, Except.ok d)

end GitHubCrawlerCached

/-! ## Concrete sample inputs used by witnesses and counterexamples -/

/-- A well-formed profile created at epoch 0. -/
def sampleProfile : Profile :=
  { created_at := some 0, name := some "Alice Doe", html_url := some "u",
    avatar_url := some "a", location := some "Berlin", hireable := true,
    followers := some 120, public_repos := 16 }

/-- A repository with 101 stars and no language. -/
def repo101 : Repo :=
  { name := "r", description := none, language := none, topics := [],
    stargazers_count := 101, forks_count := 0 }

/-- A Python repository with 51 stars. -/
def repoPython : Repo :=
  { name := "ml", description := some "Deep learning toolkit",
    language := some "Python", topics := ["tensorflow"],
    stargazers_count := 51, forks_count := 3 }

/-- An experience record of a senior candidate: 6 years, 51 stars,
16 repos. -/
def sampleExperience : Experience :=
  { yearsSinceJoin := some 6, totalStars := 51, totalForks := 3,
    publicRepos := 16, level := "senior" }

/-- A requirements record asking for a senior Python candidate. -/
def sampleReq : JobRequirements :=
  { requiredSkills := ["python"], preferredSkills := ["python"],
    level := "senior", yearsExperience := { min := 3, max := 10 } }

/-- A requirements record with empty skill lists. -/
def emptyReq : JobRequirements :=
  { requiredSkills := [], preferredSkills := [],
    level := "senior", yearsExperience := { min := 3, max := 10 } }

/-- An uncached-crawler candidate that matches `sampleReq` on every score
component. -/
def sampleCandidateU : GitHubCrawler.CandidateU :=
  { login := "alice", skills := ["python"], experience := sampleExperience,
    hireable := true }

/-- A cached-crawler enriched candidate with the same data. -/
def sampleEnriched : GitHubCrawlerCached.EnrichedCandidate :=
  { username := "alice", name := "Alice Doe", profileUrl := some "u",
    avatar := some "a", location := some "Berlin", hireable := true,
    followers := some 120, experience := sampleExperience,
    skills := ["python"], repositories := 16,
    skillsMatch := ⟨1, 1, 2⟩ }

/-- Sub-fetch outcomes where the profile request for `"alice"` fails and
everything else succeeds. -/
def sampleFetches : String → GitHubCrawlerCached.FetchResults :=
  fun login =>
    if login == "alice" then
      { profile := Except.error "HTTP 500", repos := Except.ok [repoPython],
        events := Except.ok [] }
    else
      { profile := Except.ok sampleProfile, repos := Except.ok [repoPython],
        events := Except.ok ["PushEvent"] }

/-- An empty cache-manager state over `Nat` payloads with the default
capacity of 200. -/
def emptyCacheState : CacheManager.State Nat :=
  { maxMemorySize := 200, memoryCache := [], disk := [],
    stats := ⟨0, 0, 0, 0, 0⟩ }

/-- A cache-manager state whose only content is a corrupt on-disk file
for key `"k"`. -/
def corruptCacheState : CacheManager.State Nat :=
  { maxMemorySize := 200, memoryCache := [],
    disk := [("k", CacheManager.DiskFile.corrupt)],
    stats := ⟨0, 0, 0, 0, 0⟩ }

/-- A profile with 3 public repositories, created at epoch 0 (the junior
instance of the experience-threshold claim). -/
def juniorProfile : Profile :=
  { created_at := some 0, name := none, html_url := none, avatar_url := none,
    location := none, hireable := false, followers := some 1, public_repos := 3 }

/-- A repository with 5 stars. -/
def repo5 : Repo :=
  { name := "small", description := none, language := none, topics := [],
    stargazers_count := 5, forks_count := 0 }

/-- A cached-crawler enriched candidate whose `skillsMatch` was computed
against empty requirement lists (zero matches). -/
def sampleEnrichedNoMatch : GitHubCrawlerCached.EnrichedCandidate :=
  { username := "alice", name := "Alice Doe", profileUrl := some "u",
    avatar := some "a", location := some "Berlin", hireable := true,
    followers := some 120, experience := sampleExperience,
    skills := ["python"], repositories := 16,
    skillsMatch := ⟨0, 0, 0⟩ }

/-! ## Helper lemmas -/

theorem mem_insertStable {le : α → α → Bool} {a x : α} {l : List α} :
    a ∈ insertStable le x l ↔ a = x ∨ a ∈ l := by
  induction l with
  | nil => simp [insertStable]
  | cons y ys ih =>
    by_cases h : le x y = true
    · simp [insertStable, h]
    · simp [insertStable, h, ih]
      tauto

theorem mem_sortStable {le : α → α → Bool} {a : α} {l : List α} :
    a ∈ sortStable le l ↔ a ∈ l := by
  induction l with
  | nil => simp [sortStable]
  | cons x xs ih => simp [sortStable, mem_insertStable, ih]

namespace CacheManager

theorem assocFind_map_replace (m : List (String × α)) (k : String) (v : α) :
    assocFind (m.map (fun p => if p.1 == k then (k, v) else p)) k =
      if m.any (fun p => p.1 == k) then some v else none := by
  induction m with
  | nil => rfl
  | cons hd tl ih =>
    by_cases h : hd.1 == k
    · simp only [List.map_cons, if_pos h]
      simp [assocFind, List.find?_cons_of_pos, List.any_cons, h]
    · simp only [List.map_cons, if_neg h]
      simp only [assocFind, List.any_cons, h, Bool.false_or]
      rw [List.find?_cons_of_neg _ (by simpa using h)]
      exact ih

theorem assocFind_assocSet_self (m : List (String × α)) (k : String) (v : α) :
    assocFind (assocSet m k v) k = some v := by
  unfold assocSet
  by_cases h : m.any (fun p => p.1 == k)
  · rw [if_pos h, assocFind_map_replace, if_pos h]
  · rw [if_neg h]
    have hnone : m.find? (fun p => p.1 == k) = none := by
      rw [List.find?_eq_none]
      intro p hp
      intro hpk
      exact h (List.any_eq_true.2 ⟨p, hp, hpk⟩)
    simp [assocFind, List.find?_append, hnone]

end CacheManager

theorem jsRound_nonneg {x : ℚ} (h : 0 ≤ x) : 0 ≤ jsRound x := by
  unfold jsRound
  rw [Int.le_floor]
  push_cast
  linarith

theorem jsRound_le {x : ℚ} {b : ℤ} (h : x ≤ (b : ℚ)) : jsRound x ≤ b := by
  unfold jsRound
  have h3 : ⌊x + 1/2⌋ < b + 1 := by
    rw [Int.floor_lt]
    push_cast
    linarith
  omega

namespace GitHubCrawler

theorem matchCount_le (skills jobSkills : List String) :
    matchCount skills jobSkills ≤ jobSkills.length :=
  List.length_filter_le _ _

theorem overlapComponent_bounds {jobSkills : List String} (skills : List String)
    {weight : ℚ} (hw : 0 ≤ weight) (h : jobSkills ≠ []) :
    ∃ q, overlapComponent jobSkills skills weight = some q ∧ 0 ≤ q ∧ q ≤ weight := by
  unfold overlapComponent
  have hl : ¬ jobSkills.length = 0 := by simpa using h
  rw [if_neg hl]
  have hpos : (0:ℚ) < (jobSkills.length : ℚ) := by
    exact_mod_cast Nat.pos_of_ne_zero hl
  refine ⟨_, rfl, ?_, ?_⟩
  · exact mul_nonneg (div_nonneg (Nat.cast_nonneg _) hpos.le) hw
  · have hm : (matchCount skills jobSkills : ℚ) / (jobSkills.length : ℚ) ≤ 1 := by
      rw [div_le_one hpos]
      exact_mod_cast matchCount_le skills jobSkills
    have := mul_le_mul_of_nonneg_right hm hw
    simpa using this

theorem bonuses_bounds (req : JobRequirements) (c : CandidateU) :
    0 ≤ levelBonus req.level c.experience.level
        + yearsBonus req.yearsExperience c.experience.yearsSinceJoin
        + (if 50 < c.experience.totalStars then (5:ℚ) else 0)
        + (if 15 < c.experience.publicRepos then (5:ℚ) else 0)
        + (if c.hireable then (5:ℚ) else 0) ∧
      levelBonus req.level c.experience.level
        + yearsBonus req.yearsExperience c.experience.yearsSinceJoin
        + (if 50 < c.experience.totalStars then (5:ℚ) else 0)
        + (if 15 < c.experience.publicRepos then (5:ℚ) else 0)
        + (if c.hireable then (5:ℚ) else 0) ≤ 45 := by
  unfold levelBonus yearsBonus
  split_ifs <;> norm_num

theorem scoreValue_bounds (req : JobRequirements) (c : CandidateU)
    (h1 : req.requiredSkills ≠ []) (h2 : req.preferredSkills ≠ []) :
    ∃ s, scoreValue req c = some s ∧ 0 ≤ s ∧ s ≤ 105 := by
  obtain ⟨q1, e1, q1n, q1b⟩ :=
    overlapComponent_bounds c.skills (by norm_num : (0:ℚ) ≤ 40) h1
  obtain ⟨q2, e2, q2n, q2b⟩ :=
    overlapComponent_bounds c.skills (by norm_num : (0:ℚ) ≤ 20) h2
  obtain ⟨hb0, hb45⟩ := bonuses_bounds req c
  unfold scoreValue
  rw [e1, e2]
  simp only [addNaN]
  exact ⟨_, rfl, by linarith, by linarith⟩

theorem buildScored_score_bounds (req : JobRequirements) (c : CandidateU)
    (h1 : req.requiredSkills ≠ []) (h2 : req.preferredSkills ≠ []) :
    ∃ s, (buildScored req c).score = some s ∧ 0 ≤ s ∧ s ≤ 105 := by
  obtain ⟨q, hq, hq0, hq105⟩ := scoreValue_bounds req c h1 h2
  refine ⟨jsRound q, ?_, jsRound_nonneg hq0, jsRound_le (by exact_mod_cast hq105)⟩
  simp [buildScored, hq]

theorem mem_scoreCandidates {req : JobRequirements} {cands : List CandidateU}
    {sc : ScoredCandidateU} (h : sc ∈ scoreCandidates req cands) :
    ∃ c ∈ cands, sc = buildScored req c := by
  unfold scoreCandidates at h
  rw [mem_sortStable] at h
  obtain ⟨c, hc, hce⟩ := List.mem_map.1 h
  exact ⟨c, hc, hce.symm⟩

end GitHubCrawler

namespace GitHubCrawlerCached

theorem skillsScoreQ_nonneg (req : JobRequirements) (c : EnrichedCandidate) :
    0 ≤ skillsScoreQ req c := by
  unfold skillsScoreQ
  have hd : (0:ℚ) < (if req.requiredSkills.length = 0 then 1
      else (req.requiredSkills.length : ℚ)) := by
    split_ifs with h
    · norm_num
    · exact_mod_cast Nat.pos_of_ne_zero h
  exact mul_nonneg (div_nonneg (Nat.cast_nonneg _) hd.le) (by norm_num)

theorem activityScoreQ_nonneg (c : EnrichedCandidate) : 0 ≤ activityScoreQ c := by
  unfold activityScoreQ
  exact le_min (div_nonneg (Nat.cast_nonneg _) (by norm_num)) (by norm_num)

theorem locationScoreQ_nonneg (c : EnrichedCandidate) : 0 ≤ locationScoreQ c := by
  unfold locationScoreQ
  split_ifs <;> norm_num

theorem scoreValue_boundsCached (req : JobRequirements) (c : EnrichedCandidate)
    (y : ℚ) (hy : c.experience.yearsSinceJoin = some y) (h0 : 0 ≤ y) :
    ∃ s, scoreValue req c = some s ∧ 0 ≤ s ∧ s ≤ 100 := by
  have hexp : experienceScoreQ c = some (min (y * 5) 30) := by
    unfold experienceScoreQ
    rw [hy]
    rfl
  have hexp0 : 0 ≤ min (y * 5) 30 :=
    le_min (mul_nonneg h0 (by norm_num)) (by norm_num)
  unfold scoreValue
  rw [hexp]
  refine ⟨_, rfl, ?_, min_le_right _ _⟩
  apply le_min _ (by norm_num)
  apply jsRound_nonneg
  have h1 := skillsScoreQ_nonneg req c
  have h2 := activityScoreQ_nonneg c
  have h3 := locationScoreQ_nonneg c
  linarith

theorem mem_scoreCandidatesCached {req : JobRequirements}
    {cands : List EnrichedCandidate} {sc : ScoredCandidate}
    (h : sc ∈ scoreCandidates req cands) :
    ∃ c ∈ cands, sc = { candidate := c, score := scoreValue req c } := by
  unfold scoreCandidates at h
  have h2 := (List.take_sublist 20 _).subset h
  rw [mem_sortStable] at h2
  obtain ⟨c, hc, hce⟩ := List.mem_map.1 h2
  exact ⟨c, hc, hce.symm⟩

end GitHubCrawlerCached

theorem removeDuplicatesAux_filter_of_mem (seen : List String) (l : List SearchUser)
    (s : String) (h : s ∈ seen) :
    (removeDuplicatesAux seen l).filter (fun c => c.login == s) = [] := by
  induction l generalizing seen with
  | nil => rfl
  | cons c rest ih =>
    by_cases hc : c.login ∈ seen
    · simpa [removeDuplicatesAux, hc] using ih seen h
    · have hne : (c.login == s) = false := by
        rw [beq_eq_false_iff_ne]
        intro he
        exact hc (by rw [he]; exact h)
      simpa [removeDuplicatesAux, hc, List.filter_cons, hne] using
        ih (c.login :: seen) (List.mem_cons_of_mem _ h)

theorem removeDuplicatesAux_filter_length (seen : List String) (l : List SearchUser)
    (s : String) (h : s ∉ seen) :
    ((removeDuplicatesAux seen l).filter (fun c => c.login == s)).length ≤ 1 := by
  induction l generalizing seen with
  | nil => simp [removeDuplicatesAux]
  | cons c rest ih =>
    by_cases hc : c.login ∈ seen
    · simpa [removeDuplicatesAux, hc] using ih seen h
    · by_cases he : c.login = s
      · subst he
        have h0 := removeDuplicatesAux_filter_of_mem (c.login :: seen) rest c.login
          (List.mem_cons_self _ _)
        simp [removeDuplicatesAux, hc, List.filter_cons, h0]
      · have hne : ¬ (c.login == s) = true := by simpa using he
        have hs2 : s ∉ c.login :: seen := by
          intro hmem
          rcases List.mem_cons.1 hmem with h1 | h1
          · exact he h1.symm
          · exact h h1
        simpa [removeDuplicatesAux, hc, List.filter_cons, hne] using
          ih (c.login :: seen) hs2

theorem removeDuplicatesAux_find? (seen : List String) (l : List SearchUser)
    (s : String) (h : s ∉ seen) :
    (removeDuplicatesAux seen l).find? (fun c => c.login == s) =
      l.find? (fun c => c.login == s) := by
  induction l generalizing seen with
  | nil => rfl
  | cons c rest ih =>
    by_cases hc : c.login ∈ seen
    · have hne : (c.login == s) = false := by
        rw [beq_eq_false_iff_ne]
        intro he
        exact h (by rw [← he]; exact hc)
      simp only [removeDuplicatesAux, if_pos hc, List.find?_cons, hne]
      exact ih seen h
    · by_cases he : c.login = s
      · have hpos : (c.login == s) = true := by simpa using he
        simp [removeDuplicatesAux, hc, List.find?_cons, hpos]
      · have hne : (c.login == s) = false := by simpa using he
        have hs2 : s ∉ c.login :: seen := by
          intro hmem
          rcases List.mem_cons.1 hmem with h1 | h1
          · exact he h1.symm
          · exact h h1
        simp only [removeDuplicatesAux, if_neg hc, List.find?_cons, hne]
        exact ih (c.login :: seen) hs2

namespace GitHubCrawlerCached

theorem mem_addSkill {l : List String} {x s : String} (h : s ∈ addSkill l x) :
    s ∈ l ∨ s = x := by
  unfold addSkill at h
  split_ifs at h with hc
  · exact Or.inl h
  · rcases List.mem_append.1 h with h1 | h1
    · exact Or.inl h1
    · simp at h1
      exact Or.inr h1

theorem mem_foldl_vocab {r : Repo} {s : String} (sk : List String) (acc : List String)
    (h : s ∈ sk.foldl
      (fun a skill => if jsIncludes (repoSearchText r) skill then addSkill a skill else a) acc) :
    s ∈ acc ∨ s ∈ sk := by
  induction sk generalizing acc with
  | nil => exact Or.inl h
  | cons hd tl ih =>
    simp only [List.foldl_cons] at h
    rcases ih _ h with h1 | h1
    · by_cases hinc : jsIncludes (repoSearchText r) hd = true
      · rw [if_pos hinc] at h1
        rcases mem_addSkill h1 with h2 | h2
        · exact Or.inl h2
        · exact Or.inr (h2 ▸ List.mem_cons_self _ _)
      · rw [if_neg hinc] at h1
        exact Or.inl h1
    · exact Or.inr (List.mem_cons_of_mem _ h1)

theorem mem_addRepoSkills {acc : List String} {r : Repo} {s : String}
    (h : s ∈ addRepoSkills acc r) :
    s ∈ acc ∨ (∃ lang, r.language = some lang ∧ s = jsToLower lang) ∨ s ∈ commonSkills := by
  unfold addRepoSkills at h
  rcases mem_foldl_vocab commonSkills _ h with h1 | h1
  · cases hl : r.language with
    | some lang =>
      rw [hl] at h1
      rcases mem_addSkill h1 with h2 | h2
      · exact Or.inl h2
      · exact Or.inr (Or.inl ⟨lang, rfl, h2⟩)
    | none =>
      rw [hl] at h1
      exact Or.inl h1
  · exact Or.inr (Or.inr h1)

theorem mem_foldl_addRepoSkills {s : String} (repos : List Repo) (acc : List String)
    (h : s ∈ repos.foldl addRepoSkills acc) :
    s ∈ acc ∨ (∃ r ∈ repos, ∃ lang, r.language = some lang ∧ s = jsToLower lang) ∨
      s ∈ commonSkills := by
  induction repos generalizing acc with
  | nil => exact Or.inl h
  | cons r rest ih =>
    simp only [List.foldl_cons] at h
    rcases ih _ h with h1 | h1 | h1
    · rcases mem_addRepoSkills h1 with h2 | ⟨lang, hl, hs⟩ | h2
      · exact Or.inl h2
      · exact Or.inr (Or.inl ⟨r, List.mem_cons_self _ _, lang, hl, hs⟩)
      · exact Or.inr (Or.inr h2)
    · obtain ⟨r2, hr2, lang, hl, hs⟩ := h1
      exact Or.inr (Or.inl ⟨r2, List.mem_cons_of_mem _ hr2, lang, hl, hs⟩)
    · exact Or.inr (Or.inr h1)

theorem enrichBatch_length (now : Int) (req : JobRequirements)
    (fetches : String → FetchResults) (batch : List String) :
    (enrichBatch now req fetches batch).length = batch.length := by
  unfold enrichBatch enrichOne
  rw [List.filterMap_map]
  have hfm : (id ∘ fun login => some (enrichCandidate now req fetches login)) =
      (some ∘ fun login => enrichCandidate now req fetches login) := rfl
  rw [hfm, List.filterMap_eq_map, List.length_map]

theorem chunks5_flatten : ∀ (l : List α), (chunks5 l).flatten = l
  | [] => rfl
  | [_] => rfl
  | [_, _] => rfl
  | [_, _, _] => rfl
  | [_, _, _, _] => rfl
  | a :: b :: c :: d :: e :: rest => by
    simp [chunks5, chunks5_flatten rest]

theorem enrichCandidatesCached_length (now : Int) (req : JobRequirements)
    (fetches : String → FetchResults) (candidates : List String) :
    (enrichCandidatesCached now req fetches candidates).length = candidates.length := by
  unfold enrichCandidatesCached
  rw [List.length_flatten, List.map_map]
  have hlen : (List.length ∘ enrichBatch now req fetches) = List.length :=
    funext (enrichBatch_length now req fetches)
  rw [hlen]
  have h2 := congrArg List.length (chunks5_flatten candidates)
  rw [List.length_flatten] at h2
  exact h2

theorem makeGitHubRequest_replicate_append {α : Type} (n : Nat)
    (l : List (GHResponse α)) :
    makeGitHubRequest (List.replicate n GHResponse.rateLimited ++ l) =
      (makeGitHubRequest l).map (fun r => (r.1 + n, r.2)) := by
  induction n with
  | zero =>
    cases h : makeGitHubRequest l <;> simp [h]
  | succ n ih =>
    rw [List.replicate_succ, List.cons_append]
    cases h : makeGitHubRequest l with
    | none => simp [makeGitHubRequest, ih, h]
    | some r => simp [makeGitHubRequest, ih, h, Nat.add_assoc]

end GitHubCrawlerCached

namespace CacheManager

theorem generateKey_ns_inj {ns1 ns2 : String} (ps : List String)
    (h : generateKey ns1 ps = generateKey ns2 ps) : ns1 = ns2 := by
  unfold generateKey at h
  have h2 := congrArg String.data h
  simp only [String.data_append] at h2
  have h3 : ns1.data ++ ([':'] ++ (joinUnderscore ps).data) =
      ns2.data ++ ([':'] ++ (joinUnderscore ps).data) := by
    simpa [List.append_assoc] using h2
  exact String.ext (List.append_cancel_right h3)

end CacheManager

theorem decide3_true_iff (P Q R : Prop) [Decidable P] [Decidable Q] [Decidable R] :
    ((decide P || decide Q || decide R) = true) ↔ (P ∨ Q ∨ R) := by
  simp [Bool.or_eq_true, decide_eq_true_eq, or_assoc]

theorem decide2_true_iff (P Q : Prop) [Decidable P] [Decidable Q] :
    ((decide P || decide Q) = true) ↔ (P ∨ Q) := by
  simp [Bool.or_eq_true, decide_eq_true_eq]

namespace GitHubCrawler

theorem experienceLevel_senior_iff (y : ℚ) (stars pr : Nat) :
    experienceLevel (some y) stars pr = "senior" ↔ (5 < y ∨ 100 < stars ∨ 20 < pr) := by
  unfold experienceLevel
  simp only [nanLt]
  split_ifs with h1 h2
  · rw [decide3_true_iff] at h1
    exact ⟨fun _ => h1, fun _ => rfl⟩
  · rw [decide3_true_iff] at h1
    exact ⟨fun hx => absurd hx (by decide), fun hp => absurd hp h1⟩
  · rw [decide3_true_iff] at h1
    exact ⟨fun hx => absurd hx (by decide), fun hp => absurd hp h1⟩

theorem experienceLevel_mid_iff (y : ℚ) (stars pr : Nat)
    (hA : ¬(5 < y ∨ 100 < stars ∨ 20 < pr)) :
    experienceLevel (some y) stars pr = "mid" ↔ (2 < y ∨ 20 < stars ∨ 10 < pr) := by
  unfold experienceLevel
  simp only [nanLt]
  split_ifs with h1 h2
  · rw [decide3_true_iff] at h1
    exact absurd h1 hA
  · rw [decide3_true_iff] at h2
    exact ⟨fun _ => h2, fun _ => rfl⟩
  · rw [decide3_true_iff] at h2
    exact ⟨fun hx => absurd hx (by decide), fun hp => absurd hp h2⟩

theorem experienceLevel_junior (y : ℚ) (stars pr : Nat)
    (hA : ¬(5 < y ∨ 100 < stars ∨ 20 < pr)) (hB : ¬(2 < y ∨ 20 < stars ∨ 10 < pr)) :
    experienceLevel (some y) stars pr = "junior" := by
  unfold experienceLevel
  simp only [nanLt]
  split_ifs with h1 h2
  · rw [decide3_true_iff] at h1
    exact absurd h1 hA
  · rw [decide3_true_iff] at h2
    exact absurd h2 hB
  · rfl

end GitHubCrawler

namespace GitHubCrawlerCached

theorem experienceLevel_senior_iffCached (y : ℚ) (stars : Nat) :
    experienceLevel (some y) stars = "senior" ↔ (5 < y ∨ 1000 < stars) := by
  unfold experienceLevel
  simp only [nanLt]
  split_ifs with h1 h2
  · rw [decide2_true_iff] at h1
    exact ⟨fun _ => h1, fun _ => rfl⟩
  · rw [decide2_true_iff] at h1
    exact ⟨fun hx => absurd hx (by decide), fun hp => absurd hp h1⟩
  · rw [decide2_true_iff] at h1
    exact ⟨fun hx => absurd hx (by decide), fun hp => absurd hp h1⟩

theorem experienceLevel_mid_iffCached (y : ℚ) (stars : Nat)
    (hA : ¬(5 < y ∨ 1000 < stars)) :
    experienceLevel (some y) stars = "mid" ↔ (2 < y ∨ 100 < stars) := by
  unfold experienceLevel
  simp only [nanLt]
  split_ifs with h1 h2
  · rw [decide2_true_iff] at h1
    exact absurd h1 hA
  · rw [decide2_true_iff] at h2
    exact ⟨fun _ => h2, fun _ => rfl⟩
  · rw [decide2_true_iff] at h2
    exact ⟨fun hx => absurd hx (by decide), fun hp => absurd hp h2⟩

end GitHubCrawlerCached

/-! ## Claim theorems -/

/-- C8: for every input list of candidates, possibly containing repeated
identity handles, the deduplicated output contains each identity handle at
most once, and the element kept for a handle is its first occurrence in
input order (the first match of `find?` on the output equals the first
match on the input, for every handle). -/
theorem c8_removeDuplicates_unique_first_wins (l : List SearchUser) (s : String) :
    ((removeDuplicates l).filter (fun c => c.login == s)).length ≤ 1 ∧
      (removeDuplicates l).find? (fun c => c.login == s) =
        l.find? (fun c => c.login == s) :=
  ⟨removeDuplicatesAux_filter_length [] l s (by simp),
   removeDuplicatesAux_find? [] l s (by simp)⟩

/-- C10: for every repository list, `extractSkillsFromRepos` in the cached
crawler returns at most 20 entries, and every entry is either the
lower-cased primary language of some repository or a member of the static
(lower-case) skill vocabulary. -/
theorem c10_extractSkills_cap_and_lowercase (repos : List Repo) :
    (GitHubCrawlerCached.extractSkillsFromRepos repos).length ≤ 20 ∧
      ∀ s ∈ GitHubCrawlerCached.extractSkillsFromRepos repos,
        (∃ r ∈ repos, ∃ lang, r.language = some lang ∧ s = jsToLower lang) ∨
          s ∈ GitHubCrawlerCached.commonSkills := by
  constructor
  · unfold GitHubCrawlerCached.extractSkillsFromRepos
    rw [List.length_take]
    exact min_le_left _ _
  · intro s hs
    unfold GitHubCrawlerCached.extractSkillsFromRepos at hs
    have hmem := (List.take_sublist 20 _).subset hs
    rcases GitHubCrawlerCached.mem_foldl_addRepoSkills repos [] hmem with h | h | h
    · simp at h
    · exact Or.inl h
    · exact Or.inr h

/-- Witness for C10 at a concrete repository list: `"python"` is derived
from `repoPython` and is the lower-casing of its primary language. -/
theorem c10_witness :
    ("python" ∈ GitHubCrawlerCached.extractSkillsFromRepos [repoPython]) ∧
      ((∃ r ∈ [repoPython], ∃ lang, r.language = some lang ∧ "python" = jsToLower lang) ∨
        "python" ∈ GitHubCrawlerCached.commonSkills) :=
  ⟨by decide, (c10_extractSkills_cap_and_lowercase [repoPython]).2 "python" (by decide)⟩

/-- C5: for every key, value and `ttl > 0`, a `get` immediately after
`set(k, v, ttl)` (elapsed time 0) returns `v`; and after any elapsed time
strictly greater than `ttl`, `get(k)` returns absent (validity is
`now - storedAt < ttl`, checked in both tiers). -/
theorem c5_cache_get_after_set (V : Type) (st : CacheManager.State V)
    (k : String) (v : V) (ttl now elapsed : Int) (h : 0 < ttl) :
    (CacheManager.get now (CacheManager.set now st k v ttl) k).result = some v ∧
      (ttl < elapsed →
        (CacheManager.get (now + elapsed) (CacheManager.set now st k v ttl) k).result
          = none) := by
  have hmem : CacheManager.assocFind (CacheManager.set now st k v ttl).memoryCache k
      = some ⟨v, now, ttl⟩ := by
    simp [CacheManager.set, CacheManager.setMemoryCache,
      CacheManager.assocFind_assocSet_self]
  have hdisk : CacheManager.assocFind (CacheManager.set now st k v ttl).disk k
      = some (CacheManager.DiskFile.entry ⟨v, now, ttl⟩) := by
    simp [CacheManager.set, CacheManager.setMemoryCache,
      CacheManager.assocFind_assocSet_self]
  constructor
  · unfold CacheManager.get
    rw [hmem]
    have hv : CacheManager.isValid now (⟨v, now, ttl⟩ : CacheManager.Entry V) = true := by
      simp [CacheManager.isValid]
      omega
    simp [hv]
  · intro he
    have hv : CacheManager.isValid (now + elapsed)
        (⟨v, now, ttl⟩ : CacheManager.Entry V) = false := by
      simp [CacheManager.isValid]
      omega
    unfold CacheManager.get
    rw [hmem]
    simp only [hv, Bool.false_eq_true, if_false]
    unfold CacheManager.getFromDisk
    rw [hdisk]
    simp [hv]

/-- Witness for C5 at a concrete state: set key `"k"` to `7` with
`ttl = 10` at time 0; `get` at time 0 hits, `get` at time 11 misses. -/
theorem c5_witness :
    (CacheManager.get 0 (CacheManager.set 0 emptyCacheState "k" 7 10) "k").result
        = some 7 ∧
      (CacheManager.get (0 + 11) (CacheManager.set 0 emptyCacheState "k" 7 10) "k").result
        = none :=
  ⟨(c5_cache_get_after_set Nat emptyCacheState "k" 7 10 0 11 (by decide)).1,
   (c5_cache_get_after_set Nat emptyCacheState "k" 7 10 0 11 (by decide)).2 (by decide)⟩

/-- C4 counterexample: against a server that answers 403, 403, success,
`makeGitHubRequest` waits and retries twice and then succeeds - it neither
stops after one retry nor surfaces the second quota failure as an error,
contradicting the claimed retry-exactly-once behaviour. -/
theorem c4_counterexample :
    GitHubCrawlerCached.makeGitHubRequest
        [GitHubCrawlerCached.GHResponse.rateLimited,
         GitHubCrawlerCached.GHResponse.rateLimited,
         GitHubCrawlerCached.GHResponse.ok 7]
      = some (2, Except.ok 7) ∧ ¬((2:Nat) ≤ 1) :=
  ⟨rfl, by decide⟩

/-- C4 (amended): on each 403-class response the client waits one fixed
cooldown and retries; it keeps retrying on every consecutive 403 without
bound. The retry count equals the number of leading 403 responses, the
outcome is decided by the first non-403 response (error for another
non-success status, data for success), and against an all-403 server the
request never completes - no error is ever surfaced for quota exhaustion
and the total wait is unbounded. -/
theorem c4_retry_amended (α : Type) (n : Nat) (d : α) (s : Nat)
    (rest : List (GitHubCrawlerCached.GHResponse α)) :
    GitHubCrawlerCached.makeGitHubRequest
        (List.replicate n GitHubCrawlerCached.GHResponse.rateLimited ++
          GitHubCrawlerCached.GHResponse.ok d :: rest) = some (n, Except.ok d) ∧
      GitHubCrawlerCached.makeGitHubRequest
        (List.replicate n GitHubCrawlerCached.GHResponse.rateLimited ++
          GitHubCrawlerCached.GHResponse.httpError s :: rest) = some (n, Except.error s) ∧
      GitHubCrawlerCached.makeGitHubRequest
        (List.replicate n
          (GitHubCrawlerCached.GHResponse.rateLimited : GitHubCrawlerCached.GHResponse α))
        = none := by
  refine ⟨?_, ?_, ?_⟩
  · rw [GitHubCrawlerCached.makeGitHubRequest_replicate_append]
    simp [GitHubCrawlerCached.makeGitHubRequest]
  · rw [GitHubCrawlerCached.makeGitHubRequest_replicate_append]
    simp [GitHubCrawlerCached.makeGitHubRequest]
  · have h := GitHubCrawlerCached.makeGitHubRequest_replicate_append n
      ([] : List (GitHubCrawlerCached.GHResponse α))
    rw [List.append_nil] at h
    rw [h]
    simp [GitHubCrawlerCached.makeGitHubRequest]

/-- C6 counterexample: enriching the 2 identities `["alice", "bob"]` when
`"alice"`'s profile sub-fetch fails still returns 2 records, not
`n - 1 = 1`: the failed candidate is kept (with the empty default
profile), not dropped. -/
theorem c6_counterexample :
    (GitHubCrawlerCached.enrichCandidatesCached 0 sampleReq sampleFetches
        ["alice", "bob"]).length = 2 ∧ (2:Nat) ≠ 1 ∧
      (sampleFetches "alice").profile = Except.error "HTTP 500" :=
  ⟨rfl, by decide, rfl⟩

/-- C6 (amended): no exception escapes enrichment and no candidate is ever
dropped - the result has length `n` for `n` identities even when profile
sub-fetches fail (the getter catches the error and substitutes the empty
profile object); a failed events sub-fetch degrades to an empty sequence,
which the built record does not depend on at all (records are unchanged
under any change of the events outcome, given equal profile and repos
outcomes). -/
theorem c6_enrichment_amended (now : Int) (req : JobRequirements)
    (fetches : String → GitHubCrawlerCached.FetchResults) (candidates : List String) :
    (GitHubCrawlerCached.enrichCandidatesCached now req fetches candidates).length
        = candidates.length ∧
      ∀ f2 : String → GitHubCrawlerCached.FetchResults, ∀ login : String,
        (fetches login).profile = (f2 login).profile →
        (fetches login).repos = (f2 login).repos →
        GitHubCrawlerCached.enrichCandidate now req fetches login =
          GitHubCrawlerCached.enrichCandidate now req f2 login := by
  refine ⟨GitHubCrawlerCached.enrichCandidatesCached_length now req fetches candidates,
    ?_⟩
  intro f2 login hp hr
  unfold GitHubCrawlerCached.enrichCandidate
  rw [hp, hr]

/-- Witness for C6 at a concrete input: the enrichment of `["bob"]` under
`sampleFetches` has length 1, and changing the events outcome leaves the
record unchanged. -/
theorem c6_witness :
    (GitHubCrawlerCached.enrichCandidatesCached 0 sampleReq sampleFetches ["bob"]).length
        = ["bob"].length ∧
      GitHubCrawlerCached.enrichCandidate 0 sampleReq sampleFetches "bob" =
        GitHubCrawlerCached.enrichCandidate 0 sampleReq
          (fun _ => { profile := Except.ok sampleProfile,
                      repos := Except.ok [repoPython],
                      events := Except.error "boom" }) "bob" :=
  ⟨(c6_enrichment_amended 0 sampleReq sampleFetches ["bob"]).1,
   (c6_enrichment_amended 0 sampleReq sampleFetches ["bob"]).2
     (fun _ => { profile := Except.ok sampleProfile,
                 repos := Except.ok [repoPython],
                 events := Except.error "boom" }) "bob" rfl rfl⟩

/-- C7 counterexample: permuting the parameters changes the key string
(and hence the md5 digest): `generateKey "search" ["a", "b"]` differs from
`generateKey "search" ["b", "a"]`, refuting permutation-invariance. -/
theorem c7_counterexample :
    CacheManager.generateKey "search" ["a", "b"] ≠
      CacheManager.generateKey "search" ["b", "a"] := by
  decide

/-- C7 (amended): key generation is a pure deterministic function of the
namespace and the parameter list in its given order - identical namespace
and identical (equally ordered) parameter lists give identical keys, and
differing namespaces give differing keys for the same parameter list;
permuting the parameters in general changes the key. -/
theorem c7_generateKey_amended (ns1 ns2 : String) (ps qs : List String) :
    (ps = qs → CacheManager.generateKey ns1 ps = CacheManager.generateKey ns1 qs) ∧
      (ns1 ≠ ns2 →
        CacheManager.generateKey ns1 ps ≠ CacheManager.generateKey ns2 ps) :=
  ⟨fun h => by rw [h],
   fun hne he => hne (CacheManager.generateKey_ns_inj ps he)⟩

/-- Witness for C7 at concrete inputs: determinism on `"profile"` keys and
distinctness of the `"profile"` and `"search"` namespaces. -/
theorem c7_witness :
    (CacheManager.generateKey "profile" ["octocat"] =
        CacheManager.generateKey "profile" ["octocat"]) ∧
      CacheManager.generateKey "profile" ["octocat"] ≠
        CacheManager.generateKey "search" ["octocat"] :=
  ⟨(c7_generateKey_amended "profile" "search" ["octocat"] ["octocat"]).1 rfl,
   (c7_generateKey_amended "profile" "search" ["octocat"] ["octocat"]).2 (by decide)⟩

/-- C9 counterexample: a `get` on a key whose on-disk file is corrupt
returns a miss but leaves the corrupt file on disk - `get` performs no
deletion (only the separate `cleanup` maintenance call does). -/
theorem c9_counterexample :
    (CacheManager.get 0 corruptCacheState "k").result = none ∧
      ("k", CacheManager.DiskFile.corrupt) ∈
        (CacheManager.get 0 corruptCacheState "k").state.disk :=
  ⟨rfl, by decide⟩

/-- C9 (amended): for a key whose memory entry (if any) is stale and whose
on-disk file is corrupt, `get` returns absent without raising and leaves
the disk store unchanged; the corrupt file is removed by the next
`cleanup()` call, not by `get`. -/
theorem c9_corrupt_miss_amended (V : Type) (st : CacheManager.State V)
    (now : Int) (k : String)
    (h1 : ∀ e, CacheManager.assocFind st.memoryCache k = some e →
      CacheManager.isValid now e = false)
    (h2 : CacheManager.assocFind st.disk k = some CacheManager.DiskFile.corrupt) :
    (CacheManager.get now st k).result = none ∧
      (CacheManager.get now st k).state.disk = st.disk ∧
      ∀ f, (k, f) ∈ (CacheManager.cleanup now st).disk →
        f ≠ CacheManager.DiskFile.corrupt := by
  have hfd : CacheManager.getFromDisk now st k =
      ⟨none, CacheManager.bumpMiss st⟩ := by
    unfold CacheManager.getFromDisk
    rw [h2]
  have hget : CacheManager.get now st k = ⟨none, CacheManager.bumpMiss st⟩ := by
    cases hm : CacheManager.assocFind st.memoryCache k with
    | none =>
      unfold CacheManager.get
      rw [hm]
      exact hfd
    | some e =>
      unfold CacheManager.get
      rw [hm]
      simp [h1 e hm, hfd]
  refine ⟨by rw [hget], by simp [hget, CacheManager.bumpMiss], ?_⟩
  intro f hf
  unfold CacheManager.cleanup at hf
  have hv := (List.mem_filter.1 hf).2
  intro hcor
  rw [hcor] at hv
  simp [CacheManager.diskFileValid] at hv

/-- Witness for C9 at a concrete state with a corrupt file under `"k"`. -/
theorem c9_witness :
    (CacheManager.get 0 corruptCacheState "k").result = none ∧
      (CacheManager.get 0 corruptCacheState "k").state.disk = corruptCacheState.disk ∧
      ∀ f, (("k", f) ∈ (CacheManager.cleanup 0 corruptCacheState).disk) →
        f ≠ CacheManager.DiskFile.corrupt :=
  c9_corrupt_miss_amended Nat corruptCacheState 0 "k"
    (fun e he => by simp [corruptCacheState, CacheManager.assocFind] at he)
    (by decide)

/-- C3 counterexample: a profile created "now" (0 fractional years) with a
single 101-star repository. The claimed rule (`totalStars > 100` promotes
to senior) would classify it senior, but the cached crawler's
`calculateExperience` returns `"mid"` - its star thresholds are 1000/100
and the repository count is ignored. -/
theorem c3_counterexample :
    (GitHubCrawlerCached.calculateExperience 0 sampleProfile [repo101]).level = "mid" ∧
      100 < totalStars [repo101] ∧
      (GitHubCrawlerCached.calculateExperience 0 sampleProfile [repo101]).level
        ≠ "senior" := by
  have hy0 : ((0 : Int) - 0 : Int) = (0 : Int) := by omega
  have hl : (GitHubCrawlerCached.calculateExperience 0 sampleProfile [repo101]).level =
      GitHubCrawlerCached.experienceLevel (some 0) (totalStars [repo101]) := by
    simp [GitHubCrawlerCached.calculateExperience, yearsSinceJoinRaw, sampleProfile]
  have hstars : totalStars [repo101] = 101 := by decide
  have hmid : GitHubCrawlerCached.experienceLevel (some 0) 101 = "mid" :=
    (GitHubCrawlerCached.experienceLevel_mid_iffCached 0 101 (by norm_num)).2
      (Or.inr (by norm_num))
  rw [hl, hstars, hmid]
  exact ⟨rfl, by decide, by decide⟩

/-- C3 (amended): the claimed threshold rule (`senior` iff
`years > 5 ∨ stars > 100 ∨ repos > 20`; else `mid` iff
`years > 2 ∨ stars > 20 ∨ repos > 10`; else `junior`) holds exactly for
the uncached `GitHubCrawler.calculateExperience` (with `repos` read from
`profile.public_repos`); the cached variant instead uses only years and
stars, with `senior` iff `years > 5 ∨ stars > 1000` and (otherwise) `mid`
iff `years > 2 ∨ stars > 100`. -/
theorem c3_experience_levels_amended (now : Int) (p : Profile) (repos : List Repo)
    (c : Int) (y : ℚ) (hc : p.created_at = some c)
    (hy : y = ((now - c : Int) : ℚ) / (msPerYear : ℚ)) :
    ((GitHubCrawler.calculateExperience now p repos).level = "senior" ↔
        (5 < y ∨ 100 < totalStars repos ∨ 20 < p.public_repos)) ∧
      (¬(5 < y ∨ 100 < totalStars repos ∨ 20 < p.public_repos) →
        ((GitHubCrawler.calculateExperience now p repos).level = "mid" ↔
          (2 < y ∨ 20 < totalStars repos ∨ 10 < p.public_repos))) ∧
      (¬(5 < y ∨ 100 < totalStars repos ∨ 20 < p.public_repos) →
        ¬(2 < y ∨ 20 < totalStars repos ∨ 10 < p.public_repos) →
        (GitHubCrawler.calculateExperience now p repos).level = "junior") ∧
      ((GitHubCrawlerCached.calculateExperience now p repos).level = "senior" ↔
        (5 < y ∨ 1000 < totalStars repos)) ∧
      (¬(5 < y ∨ 1000 < totalStars repos) →
        ((GitHubCrawlerCached.calculateExperience now p repos).level = "mid" ↔
          (2 < y ∨ 100 < totalStars repos))) := by
  have hlu : (GitHubCrawler.calculateExperience now p repos).level =
      GitHubCrawler.experienceLevel (some y) (totalStars repos) p.public_repos := by
    simp [GitHubCrawler.calculateExperience, yearsSinceJoinRaw, hc, hy]
  have hlc : (GitHubCrawlerCached.calculateExperience now p repos).level =
      GitHubCrawlerCached.experienceLevel (some y) (totalStars repos) := by
    simp [GitHubCrawlerCached.calculateExperience, yearsSinceJoinRaw, hc, hy]
  rw [hlu, hlc]
  exact ⟨GitHubCrawler.experienceLevel_senior_iff y _ _,
    fun hA => GitHubCrawler.experienceLevel_mid_iff y _ _ hA,
    fun hA hB => GitHubCrawler.experienceLevel_junior y _ _ hA hB,
    GitHubCrawlerCached.experienceLevel_senior_iffCached y _,
    fun hA => GitHubCrawlerCached.experienceLevel_mid_iffCached y _ hA⟩

/-- Witness for C3 at the two concrete instances named by the claim: a
profile 6 years old with 0 stars and 0 repos is senior in the uncached
crawler, and one 1 year old with 5 stars and 3 repos is junior. -/
theorem c3_witness :
    (GitHubCrawler.calculateExperience 189216000000
        { juniorProfile with public_repos := 0 } []).level = "senior" ∧
      (GitHubCrawler.calculateExperience 31536000000 juniorProfile [repo5]).level
        = "junior" :=
  ⟨(c3_experience_levels_amended 189216000000
      { juniorProfile with public_repos := 0 } [] 0 6 rfl
      (by norm_num [msPerYear])).1.2 (Or.inl (by norm_num)),
   (c3_experience_levels_amended 31536000000 juniorProfile [repo5] 0 1 rfl
      (by norm_num [msPerYear])).2.2.1
      (by
        push_neg
        refine ⟨by norm_num, by decide, by decide⟩)
      (by
        push_neg
        refine ⟨by norm_num, by decide, by decide⟩)⟩

/-- C1 counterexample: a fully matching candidate under the uncached
crawler's `scoreCandidates` receives a score of 105 (40 required + 20
preferred + 20 level + 10 years-in-range + 5 stars + 5 repos + 5
hireable), exceeding the claimed bound of 100 - this variant applies no
final clamp. -/
theorem c1_counterexample :
    (GitHubCrawler.scoreCandidates sampleReq [sampleCandidateU]).map
        (fun sc => sc.score) = [some 105] ∧ ¬((105:ℤ) ≤ 100) := by
  have hm : GitHubCrawler.matchCount ["python"] ["python"] = 1 := by decide
  have hm40 : GitHubCrawler.overlapComponent ["python"] ["python"] 40 = some 40 := by
    simp [GitHubCrawler.overlapComponent, hm]
  have hm20 : GitHubCrawler.overlapComponent ["python"] ["python"] 20 = some 20 := by
    simp [GitHubCrawler.overlapComponent, hm]
  have hsv : GitHubCrawler.scoreValue sampleReq sampleCandidateU = some 105 := by
    show GitHubCrawler.addNaN (GitHubCrawler.overlapComponent ["python"] ["python"] 40)
      (GitHubCrawler.addNaN (GitHubCrawler.overlapComponent ["python"] ["python"] 20)
        (some (GitHubCrawler.levelBonus "senior" "senior"
          + GitHubCrawler.yearsBonus ⟨3, 10⟩ (some 6)
          + (if 50 < (51:Nat) then (5:ℚ) else 0)
          + (if 15 < (16:Nat) then (5:ℚ) else 0)
          + (if true then (5:ℚ) else 0)))) = some 105
    rw [hm40, hm20]
    simp only [GitHubCrawler.addNaN, Option.some.injEq]
    norm_num [GitHubCrawler.levelBonus, GitHubCrawler.yearsBonus, GitHubCrawler.inRange]
  have hfinal : (GitHubCrawler.buildScored sampleReq sampleCandidateU).score
      = some 105 := by
    simp only [GitHubCrawler.buildScored, hsv, Option.map_some]
    norm_num [jsRound]
  have hsc : GitHubCrawler.scoreCandidates sampleReq [sampleCandidateU] =
      [GitHubCrawler.buildScored sampleReq sampleCandidateU] := rfl
  rw [hsc]
  exact ⟨by simp [hfinal], by norm_num⟩

/-- C1 (amended): every candidate returned by the cached crawler's
`scoreCandidates` carries a score in `[0, 100]`, provided every input
candidate's `yearsSinceJoin` is a nonnegative number (not NaN); the
uncached crawler's `scoreCandidates` applies no final clamp - with
nonempty required- and preferred-skill lists its scores lie in `[0, 105]`
(and 105 is attained, see the counterexample). -/
theorem c1_score_bounds_amended :
    (∀ (req : JobRequirements) (cands : List GitHubCrawlerCached.EnrichedCandidate),
      (∀ cnd ∈ cands, ∃ y, cnd.experience.yearsSinceJoin = some y ∧ 0 ≤ y) →
      ∀ sc ∈ GitHubCrawlerCached.scoreCandidates req cands,
        ∃ s, sc.score = some s ∧ 0 ≤ s ∧ s ≤ 100) ∧
      (∀ (req : JobRequirements) (cands : List GitHubCrawler.CandidateU),
        req.requiredSkills ≠ [] → req.preferredSkills ≠ [] →
        ∀ sc ∈ GitHubCrawler.scoreCandidates req cands,
          ∃ s, sc.score = some s ∧ 0 ≤ s ∧ s ≤ 105) := by
  constructor
  · intro req cands hy sc hsc
    obtain ⟨c, hcmem, rfl⟩ := GitHubCrawlerCached.mem_scoreCandidatesCached hsc
    obtain ⟨y, hys, hy0⟩ := hy c hcmem
    exact GitHubCrawlerCached.scoreValue_boundsCached req c y hys hy0
  · intro req cands h1 h2 sc hsc
    obtain ⟨c, hcmem, rfl⟩ := GitHubCrawler.mem_scoreCandidates hsc
    exact GitHubCrawler.buildScored_score_bounds req c h1 h2

/-- Witness for C1 at concrete inputs: the bound instantiated for one
cached candidate (years 6) and one uncached candidate under `sampleReq`. -/
theorem c1_witness :
    (∀ sc ∈ GitHubCrawlerCached.scoreCandidates sampleReq [sampleEnriched],
        ∃ s, sc.score = some s ∧ 0 ≤ s ∧ s ≤ 100) ∧
      (∀ sc ∈ GitHubCrawler.scoreCandidates sampleReq [sampleCandidateU],
        ∃ s, sc.score = some s ∧ 0 ≤ s ∧ s ≤ 105) :=
  ⟨c1_score_bounds_amended.1 sampleReq [sampleEnriched]
      (fun cnd hcnd => by
        simp only [List.mem_singleton] at hcnd
        subst hcnd
        exact ⟨6, rfl, by norm_num⟩),
   c1_score_bounds_amended.2 sampleReq [sampleCandidateU]
      (by simp [sampleReq]) (by simp [sampleReq])⟩

/-- C2 counterexample: the uncached `scoreCandidates` on empty required
and preferred skill lists computes `0 / 0 = NaN` for both overlap
components, so the returned score is NaN (modelled `none`) - not a number
in `[0, 100]` - rather than the components contributing 0. -/
theorem c2_counterexample :
    (GitHubCrawler.scoreCandidates emptyReq [sampleCandidateU]).map
        (fun sc => sc.score) = [none] ∧
      ∀ z : ℤ, ¬((none : Option ℤ) = some z ∧ 0 ≤ z ∧ z ≤ 100) := by
  refine ⟨rfl, ?_⟩
  rintro z ⟨h, -⟩
  exact Option.noConfusion h

/-- C2 (amended): in the cached crawler, empty requirement lists are safe:
`calculateSkillsMatch` yields zero matches, the skills component of the
score is 0 for any candidate with zero required matches (the `|| 1`
guard prevents division by zero), and all returned scores still lie in
`[0, 100]` (given non-NaN, nonnegative years). In the uncached variant the
same call yields NaN scores (see the counterexample). -/
theorem c2_empty_requirements_amended (req : JobRequirements) (skills : List String)
    (cands : List GitHubCrawlerCached.EnrichedCandidate)
    (hreq : req.requiredSkills = []) (hpref : req.preferredSkills = [])
    (hy : ∀ cnd ∈ cands, ∃ y, cnd.experience.yearsSinceJoin = some y ∧ 0 ≤ y) :
    GitHubCrawlerCached.calculateSkillsMatch skills req = ⟨0, 0, 0⟩ ∧
      (∀ cnd : GitHubCrawlerCached.EnrichedCandidate, cnd.skillsMatch.required = 0 →
        GitHubCrawlerCached.skillsScoreQ req cnd = 0) ∧
      ∀ sc ∈ GitHubCrawlerCached.scoreCandidates req cands,
        ∃ s, sc.score = some s ∧ 0 ≤ s ∧ s ≤ 100 := by
  refine ⟨?_, ?_, ?_⟩
  · simp [GitHubCrawlerCached.calculateSkillsMatch, hreq, hpref]
  · intro cnd h0
    simp [GitHubCrawlerCached.skillsScoreQ, h0]
  · intro sc hsc
    obtain ⟨c, hcmem, rfl⟩ := GitHubCrawlerCached.mem_scoreCandidatesCached hsc
    obtain ⟨y, hys, hy0⟩ := hy c hcmem
    exact GitHubCrawlerCached.scoreValue_boundsCached req c y hys hy0

/-- Witness for C2 at concrete inputs: empty requirements with one cached
candidate whose match counts are zero. -/
theorem c2_witness :
    GitHubCrawlerCached.calculateSkillsMatch ["python"] emptyReq = ⟨0, 0, 0⟩ ∧
      (∀ cnd : GitHubCrawlerCached.EnrichedCandidate, cnd.skillsMatch.required = 0 →
        GitHubCrawlerCached.skillsScoreQ emptyReq cnd = 0) ∧
      ∀ sc ∈ GitHubCrawlerCached.scoreCandidates emptyReq [sampleEnrichedNoMatch],
        ∃ s, sc.score = some s ∧ 0 ≤ s ∧ s ≤ 100 :=
  c2_empty_requirements_amended emptyReq ["python"] [sampleEnrichedNoMatch] rfl rfl
    (fun cnd hcnd => by
      simp only [List.mem_singleton] at hcnd
      subst hcnd
      exact ⟨6, rfl, by norm_num⟩)
